import Mathlib

/-!
Shallow embedding of the core of `src/download.cpp` (class `Download`) of the
vlc-bittorrent plugin, together with the promise/future wait discipline it
builds on, the per-ContentKey singleton registry (`Download::get_download`),
and the static metadata resolver (`Download::get_metadata`).

Conventions:
- libtorrent `sha1_hash` info-hashes are abstracted as `Nat` keys;
- machine integers (`int64_t`, `int`) are modelled as `Int`, with the source
  clamps (`std::min` against `INT_MAX` etc.) written out explicitly; on every
  path exercised by the theorems below the operands of `/` and `%` are
  nonnegative, where C integer division and Lean integer division agree;
- the alert stream delivered by the session thread is modelled as a list of
  timestamped alerts; each blocking wait (a promise subscribed as an alert
  listener, plus `future::wait_for`/`future::get`) is a function of that
  schedule.
-/

namespace VlcBt

/-- Constant `kB` from download.cpp. -/
def kB : Int := 1024

/-- Constant `MB` from download.cpp. -/
def MB : Int := 1024 * kB

/-- `PRIO_HIGHEST` (7), the tier used for the exactly requested range. -/
def PRIO_HIGHEST : Int := 7

/-- `PRIO_HIGHER` (6), the tier used for the head and tail windows. -/
def PRIO_HIGHER : Int := 6

/-- `PRIO_HIGH` (5), the tier used for the forward read-ahead window. -/
def PRIO_HIGH : Int := 5

/-- `PIECE_READ_TIMEOUT` (60 seconds), ceiling of the piece-presence wait. -/
def PIECE_READ_TIMEOUT : Nat := 60

/-- `std::numeric_limits<int>::max()` on the target platform (32-bit int). -/
def INT_MAX : Int := 2147483647

/-- The file table and piece geometry of one torrent
(libtorrent `torrent_info` / `file_storage`): a fixed piece length and a
list of (path, size) file entries laid out back to back. -/
structure TorrentInfo where
  pieceLength : Int
  files : List (String × Int)
deriving DecidableEq

namespace TorrentInfo

/-- Number of files in the torrent (`file_storage::num_files`). -/
def num_files (ti : TorrentInfo) : Int := (ti.files.length : Int)

/-- Size of file `i` (`file_storage::file_size`). -/
def file_size (ti : TorrentInfo) (i : Nat) : Int :=
  ((ti.files.get? i).map Prod.snd).getD 0

/-- Path of file `i` (`file_storage::file_path`). -/
def file_path (ti : TorrentInfo) (i : Nat) : String :=
  ((ti.files.get? i).map Prod.fst).getD ""

/-- Global byte offset of the start of file `i` inside the torrent
(`file_storage::file_offset`): files are laid out consecutively. -/
def file_offset (ti : TorrentInfo) (i : Nat) : Int :=
  ((ti.files.take i).map Prod.snd).sum

/-- Total number of bytes in the torrent (`file_storage::total_size`). -/
def total_size (ti : TorrentInfo) : Int := (ti.files.map Prod.snd).sum

/-- Size of piece `p` (`torrent_info::piece_size`): the fixed piece length,
except that the final piece holds only the remaining bytes. -/
def piece_size (ti : TorrentInfo) (p : Nat) : Int :=
  min ti.pieceLength (ti.total_size - (p : Int) * ti.pieceLength)

/-- Well-formedness of the geometry: a positive piece length and nonnegative
file sizes. -/
def WF (ti : TorrentInfo) : Prop :=
  0 < ti.pieceLength ∧ ∀ f ∈ ti.files, 0 ≤ f.2

instance (ti : TorrentInfo) : Decidable ti.WF := by
  unfold WF
  infer_instance

end TorrentInfo

/-- libtorrent `peer_request`: a byte range inside a torrent expressed as a
start piece, an offset into that piece, and a length. -/
structure PeerRequest where
  piece : Nat
  start : Int
  length : Int
deriving DecidableEq

/-- `file_storage::map_file(file, offset, size)`: translate a file-relative
byte range into a `peer_request`, clamping the length at the end of the
torrent. -/
def map_file (ti : TorrentInfo) (file : Nat) (offset : Int) (size : Int) :
    PeerRequest :=
  let g := ti.file_offset file + offset
  { piece := (g / ti.pieceLength).toNat
    start := g % ti.pieceLength
    length := if g + size > ti.total_size then ti.total_size - g else size }

/-- A map from piece index to its current download priority
(`torrent_handle::piece_priority`). -/
def PrioMap : Type := Nat → Int

/-- A map from piece index to the on-disk presence bit
(`torrent_handle::have_piece`). -/
def HaveMap : Type := Nat → Bool

/-- The loop body of `Download::set_piece_priority`:

  `for (; part.length > 0; part.length -= ti->piece_size(part.piece++))`
  `  if (!have_piece(p) && piece_priority(p) < prio) piece_priority(p, prio);`

Fuel-indexed so the recursion is structural; each source iteration consumes at
least one byte of `length` whenever the visited piece size is positive, so
`length.toNat` fuel runs the loop to completion on all in-range inputs. -/
def prioLoop (ti : TorrentInfo) (haveP : HaveMap) (tier : Int) :
    Nat → Nat → Int → PrioMap → PrioMap
  | 0, _, _, pm => pm
  | fuel + 1, piece, length, pm =>
    if 0 < length then
      prioLoop ti haveP tier fuel (piece + 1) (length - ti.piece_size piece)
        (fun q =>
          if q = piece ∧ ¬haveP piece ∧ pm piece < tier then tier else pm q)
    else pm

/-- The set of piece indices visited by the `set_piece_priority` loop, in the
same fuel-indexed recursion as `prioLoop`. -/
def coveredLoop (ti : TorrentInfo) : Nat → Nat → Int → Nat → Bool
  | 0, _, _, _ => false
  | fuel + 1, piece, length, q =>
    if 0 < length then
      decide (q = piece) ||
        coveredLoop ti fuel (piece + 1) (length - ti.piece_size piece) q
    else false

/-- `Download::set_piece_priority(file, off, size, prio)` (download.cpp:359):
clamp the offset to the file size and the size to `INT_MAX` and to the
remaining bytes of the file, map the range, and raise every visited,
not-yet-owned piece whose priority is below `prio`. -/
def set_piece_priority (ti : TorrentInfo) (haveP : HaveMap) (file : Nat)
    (off size : Int) (tier : Int) (pm : PrioMap) : PrioMap :=
  let filesz := ti.file_size file
  let off' := min off filesz
  let size' := min (min INT_MAX size) (filesz - off')
  let part := map_file ti file off' size'
  prioLoop ti haveP tier part.length.toNat part.piece part.length pm

/-- The pieces whose priority a `set_piece_priority` call may touch: the
loop-visited pieces of the clamped, mapped range. -/
def coveredCall (ti : TorrentInfo) (file : Nat) (off size : Int) (q : Nat) :
    Bool :=
  let filesz := ti.file_size file
  let off' := min off filesz
  let size' := min (min INT_MAX size) (filesz - off')
  let part := map_file ti file off' size'
  coveredLoop ti part.length.toNat part.piece part.length q

/-- The "head/tail window" size of `Download::read` (download.cpp:317):
`max(min(INT_MAX, filesz / 1000), 128 kB)`. -/
def headTailWindow (filesz : Int) : Int :=
  max (min INT_MAX (filesz / 1000)) (128 * kB)

/-- The "read-ahead window" size of `Download::read` (download.cpp:323):
`max(min(INT_MAX, 5 * filesz / 100), 32 MB)`. -/
def readAheadWindow (filesz : Int) : Int :=
  max (min INT_MAX (5 * filesz / 100)) (32 * MB)

/-- The priority-raising phase of `Download::read` (download.cpp:314-326):
the exact requested range to `PRIO_HIGHEST`, head and tail windows to
`PRIO_HIGHER`, and a forward read-ahead window to `PRIO_HIGH`, in source
order. `partLength` is `part.length` of the mapped requested range. -/
def read_prioritize (ti : TorrentInfo) (haveP : HaveMap) (file : Nat)
    (fileoff : Int) (partLength : Int) (pm : PrioMap) : PrioMap :=
  let filesz := ti.file_size file
  let s1 := set_piece_priority ti haveP file fileoff partLength PRIO_HIGHEST pm
  let p01 := headTailWindow filesz
  let s2 := set_piece_priority ti haveP file 0 p01 PRIO_HIGHER s1
  let s3 := set_piece_priority ti haveP file (filesz - p01) p01 PRIO_HIGHER s2
  let p5 := readAheadWindow filesz
  set_piece_priority ti haveP file fileoff p5 PRIO_HIGH s3

/-- The engine alerts observed by the promise listeners of download.cpp
(a closed tagged union of the libtorrent alert kinds they match on). -/
inductive Alert where
  | pieceFinished (ih : Nat) (piece : Nat)
  | readPiece (ih : Nat) (piece : Nat) (error : Bool) (size : Int)
  | metadataReceived (ih : Nat)
  | metadataFailed (ih : Nat)
  | torrentError (ih : Nat)
  | torrentRemoved (ih : Nat)
deriving DecidableEq

/-- How one blocking wait can resolve: a matching success alert, expiry of a
`wait_for` ceiling, the registered VLC interrupt hook setting the
"vlc interrupted" exception, or a matching failure alert setting an engine
error exception. -/
inductive WaitOutcome where
  | success
  | timeout
  | canceled
  | swarmError
deriving DecidableEq

/-- The schedule seen by one pending wait: the timestamped alerts the session
thread delivers to the subscribed listener during the wait, and the time at
which the host fires `vlc_interrupt`, if it does. -/
structure AlertEnv where
  alerts : List (Nat × Alert)
  interruptAt : Option Nat
deriving DecidableEq

/-- `DownloadPiecePromise::handle_alert` (download.cpp:177): matched by a
`piece_finished_alert` with the same info-hash and piece index; it only ever
resolves with success. -/
def downloadPieceMatch (ih piece : Nat) : Alert → Option WaitOutcome
  | .pieceFinished ih' p' =>
    if ih' = ih ∧ p' = piece then some .success else none
  | _ => none

/-- `ReadPiecePromise::handle_alert` (download.cpp:145): matched by a
`read_piece_alert` with the same info-hash and piece; an error alert sets the
"read failed" exception, otherwise the buffer is delivered. -/
def readPieceMatch (ih piece : Nat) : Alert → Option (WaitOutcome × Int)
  | .readPiece ih' p' err sz =>
    if ih' = ih ∧ p' = piece then
      some (if err then (.swarmError, 0) else (.success, sz))
    else none
  | _ => none

/-- `MetadataDownloadPromise::handle_alert` (download.cpp:202): a
`torrent_error_alert` or `metadata_failed_alert` for the same info-hash sets
the "metadata failed" exception; a `metadata_received_alert` resolves with
success. -/
def metadataMatch (ih : Nat) : Alert → Option WaitOutcome
  | .torrentError ih' => if ih' = ih then some .swarmError else none
  | .metadataFailed ih' => if ih' = ih then some .swarmError else none
  | .metadataReceived ih' => if ih' = ih then some .success else none
  | _ => none

/-- `RemovePromise::handle_alert` (download.cpp:241): matched by a
`torrent_removed_alert` for the same info-hash; success only. -/
def removeMatch (ih : Nat) : Alert → Option WaitOutcome
  | .torrentRemoved ih' => if ih' = ih then some .success else none
  | _ => none

/-- The candidate resolutions of one promise under a schedule: every matching
alert, plus — only when a `vlc_interrupt_guard` was constructed for this wait —
the interrupt hook firing with the canceled outcome `ival`. -/
def candidates {α : Type} (m : Alert → Option α) (guard : Bool) (ival : α)
    (env : AlertEnv) : List (Nat × α) :=
  env.alerts.filterMap (fun ta => (m ta.2).map (fun o => (ta.1, o))) ++
    (if guard then (env.interruptAt.map (fun t => (t, ival))).toList else [])

/-- A `std::promise` is single-assignment: of all candidate resolutions the
earliest one wins (the first listed, on a time tie). -/
def firstResolution {α : Type} (cs : List (Nat × α)) : Option (Nat × α) :=
  cs.foldl
    (fun best c =>
      match best with
      | none => some c
      | some b => if c.1 < b.1 then some c else some b)
    none

/-- One blocking wait on a promise-backed future: with a `wait_for` ceiling
`T` the wait returns the earliest resolution if it lands by `T` and otherwise
times out at `T` with outcome `tval`; with a bare `future::get` (no ceiling)
the wait returns the earliest resolution and blocks forever (`none`) when
there is none. -/
def waitFuture {α : Type} (m : Alert → Option α) (guard : Bool) (ival : α)
    (ceiling : Option Nat) (tval : α) (env : AlertEnv) : Option (Nat × α) :=
  match firstResolution (candidates m guard ival env), ceiling with
  | some (t, o), some T => if t ≤ T then some (t, o) else some (T, tval)
  | some (t, o), none => some (t, o)
  | none, some T => some (T, tval)
  | none, none => none

/-- The piece-presence wait of `Download::read` (download.cpp:329-347): a
`DownloadPiecePromise` subscribed for the wait, `wait_for(PIECE_READ_TIMEOUT)`
then `get()`. No `vlc_interrupt_guard` is constructed in this scope, so the
host interrupt is not armed for this wait. -/
def readPieceWait (ih piece : Nat) (env : AlertEnv) :
    Option (Nat × WaitOutcome) :=
  waitFuture (downloadPieceMatch ih piece) false .canceled
    (some PIECE_READ_TIMEOUT) .timeout env

/-- The metadata wait of `Download::download_metadata` (download.cpp:588-603):
a `MetadataDownloadPromise` with an `AlertSubscriber` and a
`vlc_interrupt_guard`, resolved by a bare `future::get` with no ceiling. -/
def metadataWait (ih : Nat) (env : AlertEnv) : Option (Nat × WaitOutcome) :=
  waitFuture (metadataMatch ih) true .canceled none .timeout env

/-- The piece-bytes wait of the private `Download::read(part, buf, buflen)`
(download.cpp:623-646): a `ReadPiecePromise` with an `AlertSubscriber` and a
`vlc_interrupt_guard`, resolved by a bare `future::get` with no ceiling; a
successful resolution carries the delivered piece-buffer size. -/
def pieceBytesWait (ih piece : Nat) (env : AlertEnv) :
    Option (Nat × (WaitOutcome × Int)) :=
  waitFuture (readPieceMatch ih piece) true (.canceled, 0) none (.timeout, 0)
    env

/-- The removal-confirmation wait of `Download::~Download`
(download.cpp:279-290): a `RemovePromise` subscribed for the wait and
`wait_for(5s)` whose status is discarded; `get()` is never called and no
interrupt guard is constructed. -/
def removeWait (ih : Nat) (env : AlertEnv) : Option (Nat × WaitOutcome) :=
  waitFuture (removeMatch ih) false .canceled (some 5) .timeout env

/-- The outcome of `Download::read` toward its caller: a byte count, or one
of the typed errors it throws (`runtime_error` messages in the source). -/
inductive ReadResult where
  | bytes (n : Int)
  | notFound
  | invalidArgument
  | timeoutErr
  | canceled
  | swarmError
deriving DecidableEq

/-- The three suspension points a `read` call can pass through. -/
inductive WaitSite where
  | metadata
  | piecePresence
  | pieceBytes
deriving DecidableEq

/-- The engine-visible state of one `Download` at the start of a call:
whether metadata is known (`status().has_metadata`), which pieces are on disk
(`have_piece`), and the current piece priorities (`piece_priority`). -/
structure DlState where
  hasMetadata : Bool
  haveP : HaveMap
  pm : PrioMap

/-- The schedule for one `read` call: each suspension point is a fresh,
short-lived subscription, so each gets its own alert schedule (times relative
to the start of that wait); `haveAfterWait` is the `have_piece` answer at the
re-query of download.cpp:351. -/
structure ReadEnv where
  metaEnv : AlertEnv
  pieceEnv : AlertEnv
  bytesEnv : AlertEnv
  haveAfterWait : HaveMap

/-- What a finished `read` call produced: its result, the final piece
priorities, and the ordered list of blocking waits it performed. -/
structure ReadOut where
  result : ReadResult
  pm : PrioMap
  waits : List WaitSite

/-- The `download_metadata()` prologue shared by the `Download` operations
(download.cpp:588-603): immediate if metadata is already known, otherwise a
`metadataWait`; `none` means the call never returns. -/
def metadataStep (ih : Nat) (hasMeta : Bool) (env : AlertEnv) :
    Option (Option ReadResult × List WaitSite) :=
  if hasMeta then some (none, [])
  else
    match metadataWait ih env with
    | none => none
    | some (_, .success) => some (none, [.metadata])
    | some (_, .canceled) => some (some .canceled, [.metadata])
    | some (_, .swarmError) => some (some .swarmError, [.metadata])
    | some (_, .timeout) => some (some .timeoutErr, [.metadata])

/-- `Download::read(file, fileoff, buf, buflen, cb)` (download.cpp:292-357):
metadata prologue; validate the file index and offset; end-of-file and
empty-range early returns; the three-band priority raise; the bounded
piece-presence wait when the covering piece is absent; the `have_piece`
re-query; and the piece-bytes request with the final length clamp. The result
is `none` when the call blocks forever. -/
def Download.read (ti : TorrentInfo) (ih : Nat) (st : DlState) (env : ReadEnv)
    (file fileoff buflen : Int) : Option ReadOut :=
  match metadataStep ih st.hasMetadata env.metaEnv with
  | none => none
  | some (some e, ws) => some ⟨e, st.pm, ws⟩
  | some (none, ws) =>
    if file < 0 ∨ ti.num_files ≤ file then some ⟨.notFound, st.pm, ws⟩
    else if fileoff < 0 then some ⟨.invalidArgument, st.pm, ws⟩
    else
      let f := file.toNat
      let filesz := ti.file_size f
      if filesz ≤ fileoff then some ⟨.bytes 0, st.pm, ws⟩
      else
        let part :=
          map_file ti f fileoff (min (min INT_MAX buflen) (filesz - fileoff))
        if part.length ≤ 0 then some ⟨.bytes 0, st.pm, ws⟩
        else
          let pm' := read_prioritize ti st.haveP f fileoff part.length st.pm
          let pres : Option (Option ReadResult × List WaitSite) :=
            if st.haveP part.piece then some (none, ws)
            else
              match readPieceWait ih part.piece env.pieceEnv with
              | none => none
              | some (_, .timeout) =>
                some (some .timeoutErr, ws ++ [.piecePresence])
              | some (_, .success) => some (none, ws ++ [.piecePresence])
              | some (_, .canceled) =>
                some (some .canceled, ws ++ [.piecePresence])
              | some (_, .swarmError) =>
                some (some .swarmError, ws ++ [.piecePresence])
          match pres with
          | none => none
          | some (some e, ws') => some ⟨e, pm', ws'⟩
          | some (none, ws') =>
            if env.haveAfterWait part.piece then
              match pieceBytesWait ih part.piece env.bytesEnv with
              | none => none
              | some (_, (.success, sz)) =>
                let len := min (min (sz - part.start) buflen) part.length
                if len < 0 then some ⟨.bytes (-1), pm', ws' ++ [.pieceBytes]⟩
                else some ⟨.bytes len, pm', ws' ++ [.pieceBytes]⟩
              | some (_, (.canceled, _)) =>
                some ⟨.canceled, pm', ws' ++ [.pieceBytes]⟩
              | some (_, (.swarmError, _)) =>
                some ⟨.swarmError, pm', ws' ++ [.pieceBytes]⟩
              | some (_, (.timeout, _)) =>
                some ⟨.timeoutErr, pm', ws' ++ [.pieceBytes]⟩
            else some ⟨.bytes 0, pm', ws'⟩

/-- What `Download::~Download` did: whether removal was requested from the
session, how long the bounded confirmation wait lasted, and whether any
error escaped the destructor. -/
structure DtorOut where
  removeRequested : Bool
  waitTime : Nat
  raised : Bool
deriving DecidableEq

/-- `Download::~Download` (download.cpp:279-290): when the handle is valid,
subscribe a `RemovePromise`, request `remove_torrent`, and `wait_for(5s)`;
the wait status is discarded and the future is never `get()`-ed, so no
exception can propagate out of the destructor on any schedule. -/
def Download.destruct (ih : Nat) (handleValid : Bool) (env : AlertEnv) :
    DtorOut :=
  if handleValid then
    match removeWait ih env with
    | some (t, _) => ⟨true, t, false⟩
    | none => ⟨true, 5, false⟩
  else ⟨false, 0, false⟩

/-- The process-wide singleton registry of `Download::get_download`
(download.cpp:486-515): the static map `dls : ContentKey → weak_ptr`,
modelled as the association list of keys whose instance is currently alive
(a `weak_ptr::lock` that succeeds), plus a source of fresh instance
identities. The whole lookup-or-construct body runs under the static map
mutex, so calls are serialized and each is one atomic step here. -/
structure Registry where
  live : List (Nat × Nat)
  nextId : Nat
deriving DecidableEq

/-- `dls[ih].lock()`: the live instance for a key, if any. -/
def Registry.lockOf (r : Registry) (ih : Nat) : Option Nat :=
  r.live.lookup ih

/-- `Download::get_download(atp, k)` body under the static mutex: return the
live instance for the info-hash when the weak reference is still alive,
otherwise construct a fresh instance and publish it in the map. -/
def Download.get_download (r : Registry) (ih : Nat) : Nat × Registry :=
  match r.live.lookup ih with
  | some i => (i, r)
  | none => (r.nextId, ⟨(ih, r.nextId) :: r.live, r.nextId + 1⟩)

/-- The serialized events the registry observes: a get-or-create call for a
key, or the expiry of the last shared reference to the instance of a key. -/
inductive RegOp where
  | getFor (ih : Nat)
  | expire (ih : Nat)
deriving DecidableEq

/-- One registry step: a `get_download` call, or a weak reference going dead
when the last `shared_ptr<Download>` is dropped. -/
def Registry.step (r : Registry) : RegOp → Registry
  | .getFor ih => (Download.get_download r ih).2
  | .expire ih => ⟨r.live.filter (fun p => ¬p.1 = ih), r.nextId⟩

/-- Run a serialized sequence of registry events. -/
def Registry.run (r : Registry) (ops : List RegOp) : Registry :=
  ops.foldl Registry.step r

/-- Whether an event makes `get_download` construct a new instance. -/
def Registry.constructsOn (r : Registry) : RegOp → Bool
  | .getFor ih => (r.live.lookup ih).isNone
  | .expire _ => false

/-- How many instances a serialized event sequence constructs. -/
def Registry.constructions : Registry → List RegOp → Nat
  | _, [] => 0
  | r, op :: ops =>
    (if r.constructsOn op then 1 else 0) +
      Registry.constructions (r.step op) ops

/-- The instances handed back by the `get_download` calls of a sequence. -/
def Registry.getIds : Registry → List RegOp → List Nat
  | _, [] => []
  | r, .getFor ih :: ops =>
    (Download.get_download r ih).1 :: Registry.getIds (r.step (.getFor ih)) ops
  | r, .expire ih :: ops => Registry.getIds (r.step (.expire ih)) ops

/-- At most one live instance per ContentKey: the registry keys are
duplicate-free. -/
def Registry.KeysNodup (r : Registry) : Prop :=
  (r.live.map Prod.fst).Nodup

instance (r : Registry) : Decidable r.KeysNodup := by
  unfold Registry.KeysNodup
  infer_instance

/-- A torrent descriptor as the resolver handles it: the identity of the
content (info-hash) and the tracker list carried by the `torrent_info`.
Bencoding a `create_torrent` of a `torrent_info` and parsing it back preserve
both. -/
structure Descriptor where
  infoHash : Nat
  trackers : List String
deriving DecidableEq

/-- The fixed fallback tracker list `public_trackers` of
`Download::get_metadata` (download.cpp:414-425). -/
def public_trackers : List String :=
  ["udp://tracker.openbittorrent.com:6969/announce",
   "udp://tracker.opentrackr.org:1337/announce",
   "udp://open.demonii.com:1337/announce",
   "udp://tracker.coppersurfer.tk:6969/announce",
   "udp://tracker.leechers-paradise.org:6969/announce",
   "udp://exodus.desync.com:6969/announce",
   "udp://tracker.torrent.eu.org:451/announce",
   "udp://tracker.moeking.me:6969/announce",
   "udp://valakas.rollo.dnsabr.com:2710/announce"]
  ++ ["udp://p4p.arenabg.com:1337/announce"]

/-- The reference handed to the static resolver, after
`lt::parse_magnet_uri`: a magnet-style reference that parsed (its info-hash
and any embedded trackers), or a direct file reference with the result of
parsing it as a `.torrent` file (`none` when that parse fails too). -/
inductive TorrentRef where
  | magnet (ih : Nat) (trackers : List String)
  | fileRef (parsed : Option Descriptor)
deriving DecidableEq

/-- The on-disk metadata cache path of download.cpp:454:
`cache_path + DIR_SEP + to_hex(info_hash) + ".torrent"`. -/
def cacheFilePath (cacheDir : String) (ih : Nat) : String :=
  cacheDir ++ "/" ++ String.mk (Nat.toDigits 16 ih) ++ ".torrent"

/-- What one static resolution did: the returned descriptor (`none` models
the "Failed to parse metadata from file or magnet" throw), the cache
filesystem afterwards, whether a transient `Download` session was
constructed, whether a network metadata wait happened, and the tracker list
sitting on the engine add-torrent parameters. -/
structure ResolveOut where
  result : Option Descriptor
  fs : List (String × Descriptor)
  sessionConstructed : Bool
  networkWait : Bool
  atpTrackers : List String
deriving DecidableEq

/-- The static `Download::get_metadata(url, save_path, cache_path, cb)`
(download.cpp:408-484). The cache is the association list `fs` of paths to
the descriptors their files parse to (a missing or unparseable file is
absent). `fetch` abstracts what the swarm delivers for an info-hash on the
cache-miss path (transient session plus metadata wait). -/
def Download.get_metadata (fetch : Nat → Descriptor) (ref : TorrentRef)
    (cacheDir : String) (fs : List (String × Descriptor)) : ResolveOut :=
  match ref with
  | .fileRef none => ⟨none, fs, false, false, []⟩
  | .fileRef (some d) => ⟨some d, fs, false, false, []⟩
  | .magnet ih trs =>
    let atpTrackers := if trs = [] then public_trackers else trs
    let path := cacheFilePath cacheDir ih
    match fs.lookup path with
    | some d =>
      ⟨some { d with trackers := d.trackers ++ atpTrackers }, fs, false,
        false, atpTrackers⟩
    | none =>
      let d := fetch ih
      ⟨some d, (path, d) :: fs, true, true, atpTrackers⟩

/-- A wait observable has a hard timeout ceiling when it returns on every
schedule, within one fixed bound. Modelled from the spec sentence: the wait
call blocks the calling thread with a hard ceiling. -/
def HardCeiling {α : Type} (w : AlertEnv → Option (Nat × α)) : Prop :=
  ∃ T, ∀ env, ∃ t o, w env = some (t, o) ∧ t ≤ T

/-- The accumulator-passing earliest-candidate fold only ever answers with a
list element or with its starting accumulator. -/
theorem foldlPick_mem {α : Type} :
    ∀ (cs : List (Nat × α)) (acc : Option (Nat × α)) (x : Nat × α),
      cs.foldl
        (fun best c =>
          match best with
          | none => some c
          | some b => if c.1 < b.1 then some c else some b)
        acc = some x →
      x ∈ cs ∨ acc = some x := by
  intro cs
  induction cs with
  | nil => intro acc x h; right; exact h
  | cons c cs ih =>
    intro acc x h
    simp only [List.foldl_cons] at h
    rcases ih _ x h with h1 | h2
    · exact Or.inl (List.mem_cons_of_mem _ h1)
    · cases acc with
      | none =>
        simp only at h2
        cases Option.some.inj h2
        exact Or.inl (List.mem_cons_self c cs)
      | some b =>
        simp only at h2
        by_cases hlt : c.1 < b.1
        · rw [if_pos hlt] at h2
          cases Option.some.inj h2
          exact Or.inl (List.mem_cons_self c cs)
        · rw [if_neg hlt] at h2
          exact Or.inr h2

/-- The winning resolution of a promise is one of its candidates. -/
theorem firstResolution_mem {α : Type} (cs : List (Nat × α)) (x : Nat × α)
    (h : firstResolution cs = some x) : x ∈ cs := by
  rcases foldlPick_mem cs none x h with h1 | h2
  · exact h1
  · exact absurd h2 (by simp)

/-- A `wait_for`-bounded wait always returns, by its ceiling. -/
theorem waitFuture_returns {α : Type} (m : Alert → Option α) (g : Bool)
    (iv : α) (T : Nat) (tv : α) (env : AlertEnv) :
    ∃ t o, waitFuture m g iv (some T) tv env = some (t, o) ∧ t ≤ T := by
  unfold waitFuture
  cases h : firstResolution (candidates m g iv env) with
  | none => exact ⟨T, tv, rfl, le_refl T⟩
  | some p =>
    obtain ⟨t0, o0⟩ := p
    by_cases hle : t0 ≤ T
    · exact ⟨t0, o0, by simp only [if_pos hle], hle⟩
    · exact ⟨T, tv, by simp only [if_neg hle], le_refl T⟩

/-- What a bounded wait can return: the timeout value exactly at the ceiling,
or one of the candidate resolutions (in which case its time is at most the
ceiling). -/
theorem waitFuture_cases {α : Type} (m : Alert → Option α) (g : Bool)
    (iv : α) (T : Nat) (tv : α) (env : AlertEnv) (t : Nat) (o : α)
    (h : waitFuture m g iv (some T) tv env = some (t, o)) :
    (t = T ∧ o = tv) ∨ ((t, o) ∈ candidates m g iv env ∧ t ≤ T) := by
  unfold waitFuture at h
  cases hf : firstResolution (candidates m g iv env) with
  | none =>
    rw [hf] at h
    simp only [Option.some.injEq, Prod.mk.injEq] at h
    exact Or.inl ⟨h.1.symm, h.2.symm⟩
  | some p =>
    obtain ⟨t0, o0⟩ := p
    rw [hf] at h
    by_cases hle : t0 ≤ T
    · simp only [if_pos hle, Option.some.injEq, Prod.mk.injEq] at h
      obtain ⟨ht, ho⟩ := h
      subst ht; subst ho
      exact Or.inr ⟨firstResolution_mem _ _ hf, hle⟩
    · simp only [if_neg hle, Option.some.injEq, Prod.mk.injEq] at h
      exact Or.inl ⟨h.1.symm, h.2.symm⟩

/-- The time of a bounded wait never exceeds the ceiling. -/
theorem waitFuture_le {α : Type} (m : Alert → Option α) (g : Bool) (iv : α)
    (T : Nat) (tv : α) (env : AlertEnv) (t : Nat) (o : α)
    (h : waitFuture m g iv (some T) tv env = some (t, o)) : t ≤ T := by
  rcases waitFuture_cases m g iv T tv env t o h with ⟨ht, _⟩ | ⟨_, hle⟩
  · exact ht ▸ le_refl T
  · exact hle

/-- Every candidate resolution of a `RemovePromise` with no interrupt guard
is a success: its `handle_alert` only ever calls `set_value`, and the
canceled outcome can only be injected by a registered guard. -/
theorem removeCandidates_success (ih : Nat) (env : AlertEnv) (c : Nat × WaitOutcome)
    (hc : c ∈ candidates (removeMatch ih) false .canceled env) :
    c.2 = .success := by
  simp only [candidates, Bool.false_eq_true, if_false, List.append_nil,
    List.mem_filterMap] at hc
  obtain ⟨⟨t, a⟩, _, hmatch⟩ := hc
  cases a with
  | torrentRemoved ih' =>
    simp only [removeMatch] at hmatch
    split at hmatch
    · simp only [Option.map_some'] at hmatch
      rw [← Option.some.inj hmatch]
    · simp at hmatch
  | pieceFinished ih' p' => simp [removeMatch] at hmatch
  | readPiece ih' p' e s => simp [removeMatch] at hmatch
  | metadataReceived ih' => simp [removeMatch] at hmatch
  | metadataFailed ih' => simp [removeMatch] at hmatch
  | torrentError ih' => simp [removeMatch] at hmatch

/-- A small concrete torrent for the wait-discipline claims: one 200000-byte
file in 100000-byte pieces. -/
def tiA : TorrentInfo := ⟨100000, [("movie.mkv", 200000)]⟩

/-- A `Download` whose metadata is known, with no piece on disk and every
priority at the default. -/
def stA : DlState := ⟨true, fun _ => false, fun _ => 0⟩

/-- A schedule on which the host fires its interrupt one second into the
piece-presence wait and the swarm never delivers anything. -/
def envInterrupted : ReadEnv :=
  ⟨⟨[], none⟩, ⟨[], some 1⟩, ⟨[], none⟩, fun _ => true⟩

/-- C1: the claim says firing the host interrupt while `read` blocks on
piece presence resolves the wait with the Canceled outcome. The code slip:
`Download::read` builds its `DownloadPiecePromise` and `AlertSubscriber` but
— unlike every other blocking wait in download.cpp — constructs no
`vlc_interrupt_guard`, so the interrupt hook is never armed: with the
interrupt fired at t = 1 and no piece-finished alert the wait rides out the
full 60-second ceiling and `read` throws the Timeout error, while the
metadata wait under the identical schedule is canceled at t = 1. -/
theorem C1_read_piece_wait_ignores_interrupt :
    readPieceWait 42 0 ⟨[], some 1⟩ = some (PIECE_READ_TIMEOUT, .timeout) ∧
    (Download.read tiA 42 stA envInterrupted 0 0 4096).map ReadOut.result =
      some .timeoutErr ∧
    metadataWait 42 ⟨[], some 1⟩ = some (1, .canceled) := by
  decide

/-- C2 counterexample: the claim says every blocking wait of the session
operations has a hard timeout ceiling, but the metadata wait and the
piece-bytes wait are bare `future::get()` calls: on the schedule where
nothing fires, `metadataWait` never returns at all. -/
theorem C2_counterexample_unbounded_waits :
    ¬(HardCeiling (readPieceWait 0 0) ∧ HardCeiling (metadataWait 0) ∧
      HardCeiling (pieceBytesWait 0 0)) := by
  rintro ⟨-, ⟨T, hT⟩, -⟩
  obtain ⟨t, o, heq, -⟩ := hT ⟨[], none⟩
  have hnone : metadataWait 0 ⟨[], none⟩ = none := rfl
  rw [hnone] at heq
  exact Option.noConfusion heq

/-- C2 amended: only the piece-presence wait inside `Download::read` has a
hard ceiling — it returns on every schedule within `PIECE_READ_TIMEOUT` and
yields the Timeout outcome whenever no matching piece-finished alert is
delivered (the interrupt cannot resolve it, having no guard); the metadata
wait and the piece-bytes wait have no ceiling: on an eventless schedule they
block forever, terminating only via a matching alert or — their guards being
registered — the host interrupt. -/
theorem C2_only_piece_presence_wait_bounded :
    (∀ ih piece env, ∃ t o,
      readPieceWait ih piece env = some (t, o) ∧ t ≤ PIECE_READ_TIMEOUT) ∧
    (∀ ih piece (env : AlertEnv),
      (∀ p ∈ env.alerts, downloadPieceMatch ih piece p.2 = none) →
      readPieceWait ih piece env = some (PIECE_READ_TIMEOUT, .timeout)) ∧
    metadataWait 0 ⟨[], none⟩ = none ∧
    pieceBytesWait 0 0 ⟨[], none⟩ = none ∧
    (∀ ih t (alerts : List (Nat × Alert)),
      (∀ p ∈ alerts, metadataMatch ih p.2 = none) →
      metadataWait ih ⟨alerts, some t⟩ = some (t, .canceled)) := by
  refine ⟨fun ih piece env => waitFuture_returns _ _ _ _ _ _,
    fun ih piece env h => ?_, rfl, rfl, fun ih t alerts h => ?_⟩
  · have hfm : env.alerts.filterMap
        (fun ta => (downloadPieceMatch ih piece ta.2).map (fun o => (ta.1, o)))
          = [] := by
      rw [List.filterMap_eq_nil_iff]
      intro a ha
      rw [h a ha]
      rfl
    unfold readPieceWait waitFuture candidates
    rw [hfm]
    rfl
  · have hfm : alerts.filterMap
        (fun ta => (metadataMatch ih ta.2).map (fun o => (ta.1, o))) = [] := by
      rw [List.filterMap_eq_nil_iff]
      intro a ha
      rw [h a ha]
      rfl
    unfold metadataWait waitFuture candidates
    rw [hfm]
    rfl

/-- Witness for the amended C2 at concrete schedules: an unrelated alert
plus interrupt cancels the metadata wait at its fire time, while the
piece-presence wait times out at the ceiling even with the interrupt fired
immediately. -/
theorem C2_only_piece_presence_wait_bounded_witness :
    metadataWait 5 ⟨[(2, .pieceFinished 5 0)], some 3⟩ = some (3, .canceled) ∧
    readPieceWait 1 2 ⟨[(4, .metadataReceived 1)], some 0⟩ =
      some (PIECE_READ_TIMEOUT, .timeout) :=
  ⟨C2_only_piece_presence_wait_bounded.2.2.2.2 5 3 [(2, .pieceFinished 5 0)]
      (by decide),
    C2_only_piece_presence_wait_bounded.2.1 1 2 ⟨[(4, .metadataReceived 1)], some 0⟩
      (by decide)⟩

/-- C9: the destructor of `Download` always completes without raising: it
requests removal exactly when the handle is valid, waits at most 5 seconds
for the removal confirmation, and the wait cannot be canceled by the host
interrupt (no guard is armed) — its outcome is success or a tolerated
timeout, and no schedule makes the destructor propagate an error. -/
theorem C9_destructor_always_completes (ih : Nat) (valid : Bool)
    (env : AlertEnv) (t : Nat) (o : WaitOutcome)
    (h : removeWait ih env = some (t, o)) :
    (Download.destruct ih valid env).raised = false ∧
    (Download.destruct ih valid env).waitTime ≤ 5 ∧
    (Download.destruct ih valid env).removeRequested = valid ∧
    t ≤ 5 ∧ o ≠ .canceled := by
  have hle : t ≤ 5 := waitFuture_le _ _ _ _ _ _ _ _ h
  have hnotc : o ≠ .canceled := by
    rcases waitFuture_cases _ _ _ _ _ _ _ _ h with ⟨-, ho⟩ | ⟨hmem, -⟩
    · subst ho; decide
    · have hs := removeCandidates_success ih env (t, o) hmem
      simp only at hs
      subst hs; decide
  refine ⟨?_, ?_, ?_, hle, hnotc⟩
  · cases valid with
    | false => rfl
    | true => simp [Download.destruct, h]
  · cases valid with
    | false => simp [Download.destruct]
    | true =>
      simp only [Download.destruct, h, if_pos]
      exact hle
  · cases valid with
    | false => rfl
    | true => simp [Download.destruct, h]

/-- Witness for C9 at a concrete schedule: a valid handle whose removal
confirmation never arrives still completes, charging the full 5-second
bound and tolerating the timeout. -/
theorem C9_destructor_always_completes_witness :
    removeWait 7 ⟨[], some 0⟩ = some (5, .timeout) ∧
    ((Download.destruct 7 true ⟨[], some 0⟩).raised = false ∧
      (Download.destruct 7 true ⟨[], some 0⟩).waitTime ≤ 5 ∧
      (Download.destruct 7 true ⟨[], some 0⟩).removeRequested = true ∧
      5 ≤ 5 ∧ WaitOutcome.timeout ≠ .canceled) :=
  ⟨by decide, C9_destructor_always_completes 7 true ⟨[], some 0⟩ 5 .timeout (by decide)⟩

/-- File sizes are nonnegative in a well-formed torrent. -/
theorem TorrentInfo.file_size_nonneg (ti : TorrentInfo) (hwf : ti.WF)
    (i : Nat) : 0 ≤ ti.file_size i := by
  unfold TorrentInfo.file_size
  cases h : ti.files.get? i with
  | none => simp
  | some f => simpa using hwf.2 f (List.get?_mem h)

/-- C3: a `read` at or past end-of-file on a valid file index returns 0 at
download.cpp:307, before any priority mutation and before any suspension
point: the returned priorities are the incoming ones and the wait list is
empty, on every schedule. -/
theorem C3_read_past_eof_is_pure_zero (ti : TorrentInfo) (ih : Nat)
    (st : DlState) (env : ReadEnv) (file fileoff buflen : Int)
    (hwf : ti.WF) (hmeta : st.hasMetadata = true)
    (hlo : 0 ≤ file) (hhi : file < ti.num_files)
    (heof : ti.file_size file.toNat ≤ fileoff) :
    Download.read ti ih st env file fileoff buflen =
      some ⟨.bytes 0, st.pm, []⟩ := by
  have h0 : 0 ≤ ti.file_size file.toNat := ti.file_size_nonneg hwf _
  have hoffnn : 0 ≤ fileoff := le_trans h0 heof
  simp only [Download.read, metadataStep, hmeta, if_true]
  rw [if_neg (not_or.mpr ⟨not_lt.mpr hlo, not_le.mpr hhi⟩),
    if_neg (not_lt.mpr hoffnn), if_pos heof]

/-- Witness for C3: reading the 200000-byte file of `tiA` at offset 200000
returns 0 with untouched priorities and no waits even on the adversarial
schedule with a fired interrupt. -/
theorem C3_read_past_eof_is_pure_zero_witness :
    tiA.WF ∧ 200000 ≤ tiA.file_size 0 ∧
    Download.read tiA 42 stA envInterrupted 0 200000 4096 =
      some ⟨.bytes 0, stA.pm, []⟩ :=
  ⟨by decide, by decide,
    C3_read_past_eof_is_pure_zero tiA 42 stA envInterrupted 0 200000 4096
      (by decide) rfl (by decide) (by decide) (by decide)⟩

/-- C10: a zero return from `read` does not imply end-of-file. With a valid
file index and an in-file offset, `read` returns 0 when the mapped piece
range has non-positive length (download.cpp:312, before any priority
mutation), and also when the piece-presence wait resolves successfully but
the covering piece is still not reported present at the re-query of
download.cpp:351 — in that case after the three-band priority raise and one
piece-presence wait, without attempting the piece-bytes read. -/
theorem C10_zero_return_is_not_eof (ti : TorrentInfo) (ih : Nat)
    (st : DlState) (env : ReadEnv) (file fileoff buflen : Int)
    (part : PeerRequest) (t : Nat)
    (hmeta : st.hasMetadata = true)
    (hlo : 0 ≤ file) (hhi : file < ti.num_files)
    (hoff : 0 ≤ fileoff) (hlt : fileoff < ti.file_size file.toNat)
    (hpart : part = map_file ti file.toNat fileoff
      (min (min INT_MAX buflen) (ti.file_size file.toNat - fileoff))) :
    (part.length ≤ 0 →
      Download.read ti ih st env file fileoff buflen =
        some ⟨.bytes 0, st.pm, []⟩) ∧
    (0 < part.length → st.haveP part.piece = false →
      readPieceWait ih part.piece env.pieceEnv = some (t, .success) →
      env.haveAfterWait part.piece = false →
      Download.read ti ih st env file fileoff buflen =
        some ⟨.bytes 0,
          read_prioritize ti st.haveP file.toNat fileoff part.length st.pm,
          [.piecePresence]⟩) := by
  constructor
  · intro hle
    simp only [Download.read, metadataStep, hmeta, if_true]
    rw [if_neg (not_or.mpr ⟨not_lt.mpr hlo, not_le.mpr hhi⟩),
      if_neg (not_lt.mpr hoff), if_neg (not_le.mpr hlt), ← hpart,
      if_pos hle]
  · intro hgt hhave hwait hafter
    simp only [Download.read, metadataStep, hmeta, if_true]
    rw [if_neg (not_or.mpr ⟨not_lt.mpr hlo, not_le.mpr hhi⟩),
      if_neg (not_lt.mpr hoff), if_neg (not_le.mpr hlt), ← hpart,
      if_neg (not_le.mpr hgt), hhave, hwait]
    simp only [Bool.false_eq_true, if_false, List.nil_append, hafter]

/-- A schedule on which the piece-presence wait succeeds at t = 3 but the
engine still does not report the piece on disk at the re-query. -/
def envStillMissing : ReadEnv :=
  ⟨⟨[], none⟩, ⟨[(3, .pieceFinished 42 0)], none⟩, ⟨[], none⟩, fun _ => false⟩

/-- Witness for C10 at two concrete in-file reads of `tiA`: a zero-length
request (buflen 0) returns 0 untouched, and a 4096-byte request at offset
50000 whose wait succeeds but whose piece stays absent returns 0 after the
priority raise and one wait. -/
theorem C10_zero_return_is_not_eof_witness :
    Download.read tiA 42 stA envStillMissing 0 50000 0 =
      some ⟨.bytes 0, stA.pm, []⟩ ∧
    Download.read tiA 42 stA envStillMissing 0 50000 4096 =
      some ⟨.bytes 0, read_prioritize tiA stA.haveP 0 50000 4096 stA.pm,
        [.piecePresence]⟩ :=
  ⟨(C10_zero_return_is_not_eof tiA 42 stA envStillMissing 0 50000 0
      ⟨0, 50000, 0⟩ 3 rfl (by decide) (by decide) (by decide) (by decide)
      (by decide)).1 (by decide),
    (C10_zero_return_is_not_eof tiA 42 stA envStillMissing 0 50000 4096
      ⟨0, 50000, 4096⟩ 3 rfl (by decide) (by decide) (by decide) (by decide)
      (by decide)).2 (by decide) (by decide) (by decide) (by decide)⟩

/-- Pieces visited by the priority loop lie at or after its start piece. -/
theorem coveredLoop_start_le (ti : TorrentInfo) :
    ∀ (fuel piece : Nat) (len : Int) (q : Nat),
      coveredLoop ti fuel piece len q = true → piece ≤ q := by
  intro fuel
  induction fuel with
  | zero => intro piece len q h; simp [coveredLoop] at h
  | succ n ih =>
    intro piece len q h
    simp only [coveredLoop] at h
    by_cases hl : 0 < len
    · rw [if_pos hl] at h
      simp only [Bool.or_eq_true, decide_eq_true_eq] at h
      cases h with
      | inl h1 => exact Nat.le_of_eq h1.symm
      | inr h2 => exact Nat.le_of_succ_le (ih _ _ _ h2)
    · rw [if_neg hl] at h
      exact absurd h (by simp)

/-- Pointwise effect of the `set_piece_priority` loop: a piece ends at the
requested tier exactly when the loop visits it while it is not owned and its
current priority is below the tier; otherwise it is untouched. -/
theorem prioLoop_apply (ti : TorrentInfo) (haveP : HaveMap) (tier : Int) :
    ∀ (fuel piece : Nat) (len : Int) (pm : PrioMap) (q : Nat),
      prioLoop ti haveP tier fuel piece len pm q =
        if coveredLoop ti fuel piece len q = true ∧ haveP q = false ∧
            pm q < tier
        then tier else pm q := by
  intro fuel
  induction fuel with
  | zero =>
    intro piece len pm q
    simp [prioLoop, coveredLoop]
  | succ n ih =>
    intro piece len pm q
    by_cases hl : 0 < len
    · simp only [prioLoop, coveredLoop, if_pos hl]
      rw [ih]
      by_cases hq : q = piece
      · subst hq
        have hnc : coveredLoop ti n (q + 1) (len - ti.piece_size q) q
            = false := by
          cases hcc : coveredLoop ti n (q + 1) (len - ti.piece_size q) q with
          | false => rfl
          | true =>
            exact absurd (coveredLoop_start_le ti n (q + 1) _ q hcc)
              (by omega)
        rw [hnc]
        simp only [Bool.false_eq_true, false_and, if_false,
          Bool.or_eq_true, decide_eq_true_eq, Bool.or_false, true_and,
          true_or, eq_self_iff_true, and_true]
        by_cases hh : haveP q
        · simp [hh]
        · by_cases hp : pm q < tier
          · simp [hh, hp]
          · simp [hh, hp]
      · have hni : ¬(q = piece ∧ ¬haveP piece ∧ pm piece < tier) :=
          fun hc => hq hc.1
        rw [if_neg hni]
        simp only [Bool.or_eq_true, decide_eq_true_eq]
        by_cases hcov :
            coveredLoop ti n (piece + 1) (len - ti.piece_size piece) q = true
        · simp [hq, hcov]
        · simp [hq, hcov]
    · simp only [prioLoop, coveredLoop, if_neg hl]
      simp

/-- Pointwise effect of one `Download::set_piece_priority` call. -/
theorem set_piece_priority_apply (ti : TorrentInfo) (haveP : HaveMap)
    (file : Nat) (off size tier : Int) (pm : PrioMap) (q : Nat) :
    set_piece_priority ti haveP file off size tier pm q =
      if coveredCall ti file off size q = true ∧ haveP q = false ∧
          pm q < tier
      then tier else pm q :=
  prioLoop_apply ti haveP tier _ _ _ pm q

/-- One band of the pointwise characterization: raise `x` to at least `tier`
when the piece is band-covered and not owned, otherwise leave it. -/
def bandRaise (c : Bool) (owned : Bool) (tier x : Int) : Int :=
  if c = true ∧ owned = false then max x tier else x

/-- A `set_piece_priority` call is a raise-to-max on the covered, not-owned
pieces and the identity elsewhere. -/
theorem set_piece_priority_max (ti : TorrentInfo) (haveP : HaveMap)
    (file : Nat) (off size tier : Int) (pm : PrioMap) (q : Nat) :
    set_piece_priority ti haveP file off size tier pm q =
      bandRaise (coveredCall ti file off size q) (haveP q) tier (pm q) := by
  rw [set_piece_priority_apply]
  unfold bandRaise
  by_cases hc : coveredCall ti file off size q = true ∧ haveP q = false
  · rcases lt_or_le (pm q) tier with hlt | hge
    · rw [if_pos ⟨hc.1, hc.2, hlt⟩, if_pos hc, max_eq_right hlt.le]
    · rw [if_neg (fun h => absurd h.2.2 (not_lt.mpr hge)), if_pos hc,
        max_eq_left hge]
  · rw [if_neg (fun h => hc ⟨h.1, h.2.1⟩), if_neg hc]

/-- C4: piece priorities are monotonic and idempotent under
`set_piece_priority`. On a loop-covered, not-yet-owned piece below `T1`, a
call at tier `T1` lands the piece at `T1`; a second call at any
`T2 ≤ T1` (any range, any ownership map) leaves it at `T1`; a request at or
below the current priority is a no-op on that piece; and no call ever lowers
a piece's priority. -/
theorem C4_priority_monotone_idempotent (ti : TorrentInfo)
    (h1 h2 h3 h4 : HaveMap) (f1 f2 f3 f4 : Nat)
    (o1 s1 o2 s2 o3 s3 o4 s4 : Int) (T1 T2 T3 T4 : Int) (pm : PrioMap)
    (q : Nat)
    (hcov : coveredCall ti f1 o1 s1 q = true) (hnh : h1 q = false)
    (hlt : pm q < T1) (hle : T2 ≤ T1) (hno : T3 ≤ pm q) :
    set_piece_priority ti h1 f1 o1 s1 T1 pm q = T1 ∧
    set_piece_priority ti h2 f2 o2 s2 T2
      (set_piece_priority ti h1 f1 o1 s1 T1 pm) q = T1 ∧
    set_piece_priority ti h3 f3 o3 s3 T3 pm q = pm q ∧
    pm q ≤ set_piece_priority ti h4 f4 o4 s4 T4 pm q := by
  have hfirst : set_piece_priority ti h1 f1 o1 s1 T1 pm q = T1 := by
    rw [set_piece_priority_apply, if_pos ⟨hcov, hnh, hlt⟩]
  refine ⟨hfirst, ?_, ?_, ?_⟩
  · rw [set_piece_priority_apply, hfirst,
      if_neg (fun h => absurd h.2.2 (not_lt.mpr hle))]
  · rw [set_piece_priority_apply,
      if_neg (fun h => absurd h.2.2 (not_lt.mpr hno))]
  · rw [set_piece_priority_apply]
    by_cases hc :
        coveredCall ti f4 o4 s4 q = true ∧ h4 q = false ∧ pm q < T4
    · rw [if_pos hc]; exact hc.2.2.le
    · rw [if_neg hc]

/-- Witness for C4 on `tiA`: piece 0 covered by the range `[0, 100000)`,
raised to 6, kept at 6 by a later request at 5, no-op at 0, never lowered. -/
theorem C4_priority_monotone_idempotent_witness :
    coveredCall tiA 0 0 100000 0 = true ∧
    (set_piece_priority tiA (fun _ => false) 0 0 100000 6 (fun _ => 0) 0 = 6 ∧
     set_piece_priority tiA (fun _ => false) 0 0 200000 5
       (set_piece_priority tiA (fun _ => false) 0 0 100000 6 (fun _ => 0)) 0
         = 6 ∧
     set_piece_priority tiA (fun _ => false) 0 0 100000 0 (fun _ => 0) 0 = 0 ∧
     (0 : Int) ≤ set_piece_priority tiA (fun _ => false) 0 0 100000 7
       (fun _ => 0) 0) :=
  ⟨by decide,
    C4_priority_monotone_idempotent tiA (fun _ => false) (fun _ => false)
      (fun _ => false) (fun _ => false) 0 0 0 0 0 100000 0 200000 0 100000 0
      100000 6 5 0 7 (fun _ => 0) 0 (by decide) (by decide) (by decide)
      (by decide) (by decide)⟩

/-- C5 amended: the priority phase of `read` is, pointwise, a raise-to-max
over four loop-covered bands in source order — the mapped requested range to
`PRIO_HIGHEST`, the head window `[0, p01)` and the tail window
`[filesz - p01, filesz)` with `p01 = max(min(INT_MAX, filesz/1000), 128 kB)`
to `PRIO_HIGHER`, and the read-ahead window of
`max(min(INT_MAX, 5·filesz/100), 32 MB)` bytes from the read offset to
`PRIO_HIGH` — where each band covers the run of pieces from the piece
containing its clamped start while the clamped length, decremented by
successive full piece sizes, stays positive. -/
theorem C5_read_priority_bands (ti : TorrentInfo) (haveP : HaveMap)
    (file : Nat) (fileoff partLength : Int) (pm : PrioMap) (q : Nat) :
    read_prioritize ti haveP file fileoff partLength pm q =
      bandRaise
        (coveredCall ti file fileoff (readAheadWindow (ti.file_size file)) q)
        (haveP q) PRIO_HIGH
        (bandRaise
          (coveredCall ti file
            (ti.file_size file - headTailWindow (ti.file_size file))
            (headTailWindow (ti.file_size file)) q)
          (haveP q) PRIO_HIGHER
          (bandRaise
            (coveredCall ti file 0 (headTailWindow (ti.file_size file)) q)
            (haveP q) PRIO_HIGHER
            (bandRaise (coveredCall ti file fileoff partLength q) (haveP q)
              PRIO_HIGHEST (pm q)))) := by
  simp only [read_prioritize, set_piece_priority_max]

/-- Modelled from the claim (spec 4.3 step 4 and the C5 sentence): the three
bands as plain byte ranges — the exact requested range, head and tail
windows of `max(fileSize/1000, 128 KiB)` bytes, and a read-ahead window of
`max(5% of fileSize, 32 MiB)` bytes — where a piece belongs to a band when
its byte span overlaps the band, and each not-yet-owned band piece is raised
monotonically to the band tier. -/
def claimedBandPrio (ti : TorrentInfo) (haveP : HaveMap) (file : Nat)
    (fileoff buflen : Int) (pm : PrioMap) : PrioMap := fun q =>
  let filesz := ti.file_size file
  let fo := ti.file_offset file
  let pieceLo := (q : Int) * ti.pieceLength
  let pieceHi := pieceLo + ti.piece_size q
  let overlaps : Int → Int → Bool := fun a b =>
    decide (pieceLo < fo + b ∧ fo + a < pieceHi)
  let w := max (filesz / 1000) (128 * kB)
  let ahead := max (5 * filesz / 100) (32 * MB)
  let exactHi := fileoff + min buflen (filesz - fileoff)
  if haveP q then pm q
  else
    let t1 := if overlaps fileoff exactHi then PRIO_HIGHEST else pm q
    let t2 := if overlaps 0 w then PRIO_HIGHER else pm q
    let t3 := if overlaps (filesz - w) filesz then PRIO_HIGHER else pm q
    let t4 := if overlaps fileoff (fileoff + ahead) then PRIO_HIGH else pm q
    max (max (max (max (pm q) t1) t2) t3) t4

/-- C5 counterexample: on the 200000-byte file of `tiA` with 100000-byte
pieces, `read(0, 50000, buf, 100000)` requests the byte range
`[50000, 150000)`, whose second half lies in piece 1; the claim then demands
piece 1 at the EXACT tier 7, but the source loop consumes a full piece size
per visited piece starting from the range start, so the EXACT raise touches
only piece 0, and piece 1 ends at the NEAR_EDGE tier 6 (from the head
window). -/
theorem C5_counterexample_exact_band_misses_straddled_piece :
    read_prioritize tiA (fun _ => false) 0 50000 100000 (fun _ => 0) 1 = 6 ∧
    claimedBandPrio tiA (fun _ => false) 0 50000 100000 (fun _ => 0) 1 = 7 ∧
    (6 : Int) ≠ 7 := by
  decide

/-- A key that `List.lookup` misses does not occur among the keys. -/
theorem lookup_none_not_mem_keys (k : Nat) :
    ∀ l : List (Nat × Nat), List.lookup k l = none → ¬k ∈ l.map Prod.fst := by
  intro l
  induction l with
  | nil => intro _ h; simp at h
  | cons p l ih =>
    obtain ⟨a, b⟩ := p
    intro hl hmem
    rw [List.lookup_cons] at hl
    cases hbe : (k == a) with
    | true =>
      rw [hbe] at hl
      exact Option.noConfusion hl
    | false =>
      rw [hbe] at hl
      simp only [List.map_cons, List.mem_cons] at hmem
      cases hmem with
      | inl h => exact absurd h (beq_eq_false_iff_ne.mp hbe)
      | inr h => exact ih hl h

/-- A `get_download` call on a key whose instance is alive returns that
instance and leaves the registry unchanged. -/
theorem get_download_of_live (r : Registry) (k i : Nat)
    (h : r.lockOf k = some i) : Download.get_download r k = (i, r) := by
  unfold Registry.lockOf at h
  unfold Download.get_download
  rw [h]

/-- Every serialized registry step keeps the keys duplicate-free. -/
theorem Registry.step_keysNodup (r : Registry) (op : RegOp)
    (h : r.KeysNodup) : (r.step op).KeysNodup := by
  cases op with
  | getFor k =>
    simp only [Registry.step, Download.get_download]
    cases hl : r.live.lookup k with
    | some i =>
      simp only [hl]
      exact h
    | none =>
      simp only [hl]
      unfold Registry.KeysNodup at h ⊢
      simp only [List.map_cons]
      exact List.nodup_cons.mpr ⟨lookup_none_not_mem_keys k r.live hl, h⟩
  | expire k =>
    simp only [Registry.step]
    unfold Registry.KeysNodup at h ⊢
    exact List.Nodup.sublist ((List.filter_sublist _).map Prod.fst) h

/-- Runs of serialized registry events keep the keys duplicate-free. -/
theorem Registry.run_keysNodup (r : Registry) (ops : List RegOp)
    (h : r.KeysNodup) : (Registry.run r ops).KeysNodup := by
  induction ops generalizing r with
  | nil => exact h
  | cons op ops ih =>
    simp only [Registry.run, List.foldl_cons] at *
    exact ih _ (r.step_keysNodup op h)

/-- Constructing for an absent key publishes the fresh instance under the
key, hands it back, and counts as the one construction. -/
theorem registry_construct_publishes (s : Registry) (k : Nat)
    (h : s.lockOf k = none) :
    (s.step (.getFor k)).lockOf k = some s.nextId ∧
    (Download.get_download s k).1 = s.nextId ∧
    s.constructsOn (.getFor k) = true := by
  unfold Registry.lockOf at h ⊢
  simp only [Registry.step, Registry.constructsOn, Download.get_download, h]
  refine ⟨?_, by trivial, by trivial⟩
  rw [List.lookup_cons, show (k == k) = true from beq_self_eq_true k]

/-- Once the instance for a key is alive, further get-or-create calls for
that key construct nothing and all hand back the same instance. -/
theorem registry_live_gets_stable (k i : Nat) :
    ∀ (m : Nat) (s : Registry), s.lockOf k = some i →
      Registry.constructions s (List.replicate m (.getFor k)) = 0 ∧
      Registry.getIds s (List.replicate m (.getFor k)) =
        List.replicate m i := by
  intro m
  induction m with
  | zero => intro s _; exact ⟨rfl, rfl⟩
  | succ n ih =>
    intro s h
    have hstep : s.step (.getFor k) = s := by
      simp only [Registry.step, get_download_of_live s k i h]
    have hid : (Download.get_download s k).1 = i := by
      rw [get_download_of_live s k i h]
    have hco : s.constructsOn (.getFor k) = false := by
      unfold Registry.lockOf at h
      simp only [Registry.constructsOn, h]
      rfl
    constructor
    · simp only [List.replicate_succ, Registry.constructions, hco, hstep,
        Bool.false_eq_true, if_false]
      simpa using (ih s h).1
    · simp only [List.replicate_succ, Registry.getIds, hid, hstep]
      rw [(ih s h).2]

/-- C6: at most one live `Download` exists per ContentKey. Registry keys
stay duplicate-free across every serialized event sequence; a get-or-create
call for a key whose instance is alive returns exactly that instance without
touching the registry; and `n + 1` consecutive get-or-create calls for an
absent key — the serialized shape of `n + 1` concurrent first-time callers —
construct exactly one instance, every call returning the same one. -/
theorem C6_one_download_per_key (r r2 : Registry) (ops : List RegOp)
    (k k2 i : Nat) (n : Nat)
    (hnd : r.KeysNodup) (hlive : r2.lockOf k2 = some i)
    (hnone : r.lockOf k = none) :
    (Registry.run r ops).KeysNodup ∧
    Download.get_download r2 k2 = (i, r2) ∧
    Registry.constructions r (List.replicate (n + 1) (.getFor k)) = 1 ∧
    Registry.getIds r (List.replicate (n + 1) (.getFor k)) =
      List.replicate (n + 1) r.nextId := by
  obtain ⟨hpub, hfst, hcon⟩ := registry_construct_publishes r k hnone
  refine ⟨Registry.run_keysNodup r ops hnd, get_download_of_live r2 k2 i hlive,
    ?_, ?_⟩
  · simp only [List.replicate_succ, Registry.constructions, hcon, if_true]
    rw [(registry_live_gets_stable k r.nextId n (r.step (.getFor k)) hpub).1]
  · simp only [List.replicate_succ, Registry.getIds, hfst]
    rw [(registry_live_gets_stable k r.nextId n (r.step (.getFor k)) hpub).2]

/-- Witness for C6: from an empty registry, three serialized get-or-create
calls for key 5 construct once and all return instance 0, while a registry
holding a live instance 3 for key 9 hands it back unchanged. -/
theorem C6_one_download_per_key_witness :
    (Registry.run ⟨[], 0⟩ [.getFor 5, .getFor 5, .expire 5, .getFor 5]).KeysNodup ∧
    Download.get_download ⟨[(9, 3)], 4⟩ 9 = (3, ⟨[(9, 3)], 4⟩) ∧
    Registry.constructions ⟨[], 0⟩ (List.replicate 3 (.getFor 5)) = 1 ∧
    Registry.getIds ⟨[], 0⟩ (List.replicate 3 (.getFor 5)) =
      List.replicate 3 0 :=
  C6_one_download_per_key ⟨[], 0⟩ ⟨[(9, 3)], 4⟩
    [.getFor 5, .getFor 5, .expire 5, .getFor 5] 5 9 3 2
    (by decide) (by decide) (by decide)

/-- C7: the metadata cache round-trip. When the cache file for a magnet
reference parses, the resolver answers from it — same filesystem, no
transient session, no network wait, the descriptor derived from the cached
one (plus the add-parameter trackers). When it is absent, the resolver
fetches, writes the fetched descriptor to the cache path, and reports the
session construction and network wait; resolving the same reference again
then takes the cache-hit path, with no wait and no session, returning a
descriptor with the same content identity. -/
theorem C7_metadata_cache_round_trip (fetch : Nat → Descriptor)
    (ih ih2 : Nat) (trs trs2 : List String) (cacheDir cacheDir2 : String)
    (fsHit fsMiss : List (String × Descriptor)) (d : Descriptor)
    (hhit : fsHit.lookup (cacheFilePath cacheDir ih) = some d)
    (hmiss : fsMiss.lookup (cacheFilePath cacheDir2 ih2) = none) :
    Download.get_metadata fetch (.magnet ih trs) cacheDir fsHit =
      ⟨some ⟨d.infoHash,
          d.trackers ++ (if trs = [] then public_trackers else trs)⟩,
        fsHit, false, false, if trs = [] then public_trackers else trs⟩ ∧
    Download.get_metadata fetch (.magnet ih2 trs2) cacheDir2 fsMiss =
      ⟨some (fetch ih2),
        (cacheFilePath cacheDir2 ih2, fetch ih2) :: fsMiss, true, true,
        if trs2 = [] then public_trackers else trs2⟩ ∧
    Download.get_metadata fetch (.magnet ih2 trs2) cacheDir2
        ((cacheFilePath cacheDir2 ih2, fetch ih2) :: fsMiss) =
      ⟨some ⟨(fetch ih2).infoHash,
          (fetch ih2).trackers ++
            (if trs2 = [] then public_trackers else trs2)⟩,
        (cacheFilePath cacheDir2 ih2, fetch ih2) :: fsMiss, false, false,
        if trs2 = [] then public_trackers else trs2⟩ := by
  refine ⟨?_, ?_, ?_⟩
  · simp only [Download.get_metadata, hhit]
  · simp only [Download.get_metadata, hmiss]
  · simp only [Download.get_metadata, List.lookup_cons, beq_self_eq_true]

/-- Witness for C7: a concrete hit on a one-entry cache, then a miss-fetch
followed by the cache-hit re-resolution of the same magnet reference. -/
theorem C7_metadata_cache_round_trip_witness :
    Download.get_metadata (fun h => ⟨h, []⟩) (.magnet 11 []) "cache"
        [(cacheFilePath "cache" 11, ⟨11, []⟩)] =
      ⟨some ⟨11, [] ++ public_trackers⟩,
        [(cacheFilePath "cache" 11, ⟨11, []⟩)], false, false,
        public_trackers⟩ ∧
    Download.get_metadata (fun h => ⟨h, []⟩) (.magnet 12 ["udp://t"]) "cache"
        [] =
      ⟨some ⟨12, []⟩, [(cacheFilePath "cache" 12, ⟨12, []⟩)], true, true,
        ["udp://t"]⟩ ∧
    Download.get_metadata (fun h => ⟨h, []⟩) (.magnet 12 ["udp://t"]) "cache"
        [(cacheFilePath "cache" 12, ⟨12, []⟩)] =
      ⟨some ⟨12, [] ++ ["udp://t"]⟩,
        [(cacheFilePath "cache" 12, ⟨12, []⟩)], false, false,
        ["udp://t"]⟩ := by
  have h := C7_metadata_cache_round_trip (fun h => ⟨h, []⟩) 11 12 []
    ["udp://t"] "cache" "cache" [(cacheFilePath "cache" 11, ⟨11, []⟩)] []
    ⟨11, []⟩ (by rw [List.lookup_cons, beq_self_eq_true]) rfl
  exact ⟨h.1, h.2.1, h.2.2⟩

/-- C8: the engine add-parameters produced for a magnet-style reference
carry exactly the fixed public fallback tracker list when the reference
embeds no trackers, and exactly the embedded trackers otherwise. -/
theorem C8_fallback_trackers (fetch : Nat → Descriptor) (ih ih2 : Nat)
    (trs : List String) (cacheDir cacheDir2 : String)
    (fs fs2 : List (String × Descriptor)) (hne : trs ≠ []) :
    (Download.get_metadata fetch (.magnet ih []) cacheDir fs).atpTrackers =
      public_trackers ∧
    (Download.get_metadata fetch (.magnet ih2 trs) cacheDir2 fs2).atpTrackers =
      trs := by
  constructor
  · unfold Download.get_metadata
    cases hl : fs.lookup (cacheFilePath cacheDir ih) with
    | some d => simp [hl]
    | none => simp [hl]
  · unfold Download.get_metadata
    cases hl : fs2.lookup (cacheFilePath cacheDir2 ih2) with
    | some d => simp [hl, hne]
    | none => simp [hl, hne]

/-- Witness for C8 on concrete references: a bare magnet gets the ten
public fallback trackers, a magnet with one embedded tracker keeps it. -/
theorem C8_fallback_trackers_witness :
    (Download.get_metadata (fun h => ⟨h, []⟩) (.magnet 21 []) "c" []).atpTrackers =
      public_trackers ∧
    (Download.get_metadata (fun h => ⟨h, []⟩)
        (.magnet 22 ["udp://mine"]) "c" []).atpTrackers = ["udp://mine"] :=
  C8_fallback_trackers (fun h => ⟨h, []⟩) 21 22 ["udp://mine"] "c" "c" [] []
    (by decide)

end VlcBt
